import Mathlib

/-!
Shallow embedding of the seekable decrypting blob-stream reader from
`app/player/player.go` (the `reflectedStream` type and its methods), with
proofs about its read/seek/resolve/size-estimation behaviour.

Modelling conventions:
* Go `int`/`int64` values (cursors, offsets, sizes) are `Int`; lengths and
  slice indices are `Nat`; byte buffers are `List Nat`.
* Go's integer `/` truncates toward zero, which is `Int.tdiv`.
* External collaborators — the lbrynet resolver, the HTTP transport used for
  the descriptor document and for blobs, and `stream.DecryptBlob` from the
  lbry.go library — are passed in as explicit oracle arguments, so theorems
  quantify over their behaviour.
* Go runtime panics (out-of-range index, out-of-range slice bounds, nil
  dereference) are modelled as an explicit `panicked` outcome, distinct from
  a returned `error` value.
-/

namespace Player

/-- Constant `stream.MaxBlobSize` from the lbry.go dependency: 2 MiB. -/
def maxBlobSizeN : Nat := 2097152

/-- Constant `stream.MaxBlobSize` as an integer, as it appears in the int64
offset arithmetic of `Read`. -/
def maxBlobSize : Int := (maxBlobSizeN : Int)

/-- One entry of `SDBlob.BlobInfos` (lbry.go `stream.BlobInfo`): sequence
number, content hash, declared ciphertext length, and per-blob IV. -/
structure BlobInfo where
  blobNum : Nat
  blobHash : List Nat
  length : Nat
  iv : List Nat
deriving DecidableEq

/-- Type `stream.SDBlob` from lbry.go, restricted to the fields the player
reads: the shared decryption key and the blob descriptor list. -/
structure SDBlob where
  key : List Nat
  blobInfos : List BlobInfo
deriving DecidableEq

/-- Struct `reflectedStream` (player.go).  `SDBlob` is a pointer in Go and
is nil until `fetchData` succeeds, hence `Option`. -/
structure reflectedStream where
  URI : String
  StartByte : Int
  EndByte : Int
  SdHash : String
  Size : Int
  ContentType : String
  SDBlob : Option SDBlob
  seekOffset : Int
deriving DecidableEq

/-- Value `io.SeekStart`. -/
def seekStart : Int := 0

/-- Value `io.SeekCurrent`. -/
def seekCurrent : Int := 1

/-- Value `io.SeekEnd`. -/
def seekEnd : Int := 2

/-- Errors returned by `Seek` (player.go): the two `errors.New` values. -/
inductive SeekErr where
  /-- Error "invalid seek whence argument". -/
  | invalidWhence
  /-- Error "seeking before the beginning of file". -/
  | negativeSeek
deriving DecidableEq

/-- Shared tail of `Seek`: the `0 > newSeekOffset` guard and the write-back
of the new cursor. -/
def seekFinish (s : reflectedStream) (newSeekOffset : Int) :
    reflectedStream × Int × Option SeekErr :=
  if 0 > newSeekOffset then (s, 0, some .negativeSeek)
  else ({ s with seekOffset := newSeekOffset }, newSeekOffset, none)

/-- Method `reflectedStream.Seek` (player.go).  Returns the updated stream,
the returned offset, and the returned error (`none` is Go's nil). -/
def Seek (s : reflectedStream) (offset whence : Int) :
    reflectedStream × Int × Option SeekErr :=
  if whence = seekEnd then seekFinish s (s.Size - offset)
  else if whence = seekStart then seekFinish s offset
  else if whence = seekCurrent then seekFinish s (s.seekOffset + offset)
  else (s, 0, some .invalidWhence)

/-- Errors returned (as Go `error` values) by `streamBlob`. -/
inductive StreamErr where
  /-- Transport failure from `http.Get`. -/
  | httpGetErr
  /-- Failure from `ioutil.ReadAll` on the response body. -/
  | bodyReadErr
  /-- Failure from `stream.DecryptBlob`. -/
  | decryptErr
  /-- The "server responded with an unexpected status" error, carrying the
  observed non-200 status. -/
  | unexpectedStatus (status : Nat)
deriving DecidableEq

/-- An HTTP response for a blob fetch: status code and body, where a `none`
body models a failure while reading the response body. -/
structure HttpResp where
  statusCode : Nat
  body : Option (List Nat)
deriving DecidableEq

/-- Blob transport oracle; `none` models an `http.Get` transport error. -/
def FetchOracle : Type := BlobInfo → Option HttpResp

/-- Decryption oracle standing for the external `stream.DecryptBlob`:
arguments are ciphertext, key, IV; `none` models a decryption error. -/
def DecryptOracle : Type := List Nat → List Nat → List Nat → Option (List Nat)

/-- Go's `copy(dest, src)`: writes `min (len dest) (len src)` bytes of `src`
over the front of `dest`, leaving the rest of `dest` unchanged. -/
def goCopy (dest src : List Nat) : List Nat :=
  src.take dest.length ++ dest.drop (min dest.length src.length)

/-- Outcome of `streamBlob`: a runtime panic, or the destination buffer
after the copy together with the returned `(n, err)` pair. -/
inductive BlobResult where
  | panicked (msg : String)
  | res (dest : List Nat) (n : Nat) (e : Option StreamErr)
deriving DecidableEq

/-- Method `reflectedStream.streamBlob` (player.go).  `blobNum` and
`startOffsetInBlob` are the caller-computed values; `dest` is the caller's
buffer.  Indexing `s.SDBlob.BlobInfos[blobNum]` out of range is a Go runtime
panic, as is the slice `decryptedBody[lo:hi]` with `lo < 0` or `lo > hi`.
The source's `if n > 0 { startOffsetInBlob = 0 }` is dead code — the named
result `n` is still 0 at that point — and is therefore not represented. -/
def streamBlob (fetch : FetchOracle) (decrypt : DecryptOracle)
    (s : reflectedStream) (blobNum : Int) (startOffsetInBlob : Int)
    (dest : List Nat) : BlobResult :=
  match s.SDBlob with
  | none => .panicked "invalid memory address or nil pointer dereference"
  | some sdb =>
    if 0 ≤ blobNum then
      match sdb.blobInfos[blobNum.toNat]? with
      | none => .panicked "index out of range"
      | some bi =>
      match fetch bi with
      | none => .res dest 0 (some .httpGetErr)
      | some resp =>
        if resp.statusCode = 200 then
          match resp.body with
          | none => .res dest 0 (some .bodyReadErr)
          | some encryptedBody =>
            match decrypt encryptedBody sdb.key bi.iv with
            | none => .res dest 0 (some .decryptErr)
            | some decryptedBody =>
              let endOffsetInBlob : Int :=
                if (dest.length : Int) + startOffsetInBlob >
                    (decryptedBody.length : Int)
                then (decryptedBody.length : Int)
                else (dest.length : Int) + startOffsetInBlob
              if 0 ≤ startOffsetInBlob ∧ startOffsetInBlob ≤ endOffsetInBlob
              then
                let sliced := (decryptedBody.take endOffsetInBlob.toNat).drop
                  startOffsetInBlob.toNat
                .res (goCopy dest sliced) (min dest.length sliced.length) none
              else .panicked "slice bounds out of range"
        else .res dest 0 (some (.unexpectedStatus resp.statusCode))
    else .panicked "index out of range"

/-- Blob number used by `Read`:
`int(s.seekOffset / (stream.MaxBlobSize - 2))`, with Go's
truncated-toward-zero integer division (`Int.tdiv`). -/
def readBlobNum (cursor : Int) : Int := Int.tdiv cursor (maxBlobSize - 2)

/-- Start offset within the addressed blob as computed by `Read`
(player.go lines 74–78): the `+ blobNum` correction is applied only when
`blobNum` is nonzero. -/
def readStartOffset (cursor : Int) : Int :=
  if readBlobNum cursor = 0 then
    cursor - readBlobNum cursor * maxBlobSize
  else
    cursor - readBlobNum cursor * maxBlobSize + readBlobNum cursor

/-- Outcome of `Read`: a runtime panic, or the updated stream, the buffer
after the copy, and the returned `(n, err)` pair. -/
inductive ReadResult where
  | panicked (msg : String)
  | res (s : reflectedStream) (dest : List Nat) (n : Nat) (e : Option StreamErr)
deriving DecidableEq

/-- Method `reflectedStream.Read` (player.go).  The cursor update
`s.seekOffset += int64(n)` is applied unconditionally, whether or not
`streamBlob` returned an error. -/
def Read (fetch : FetchOracle) (decrypt : DecryptOracle)
    (s : reflectedStream) (p : List Nat) : ReadResult :=
  match streamBlob fetch decrypt s (readBlobNum s.seekOffset)
      (readStartOffset s.seekOffset) p with
  | .panicked msg => .panicked msg
  | .res dest n e => .res { s with seekOffset := s.seekOffset + n } dest n e

/-- Lower-case hex digit, as produced by Go's `encoding/hex`. -/
def hexDigit (n : Nat) : Char :=
  if n < 10 then Char.ofNat (48 + n) else Char.ofNat (87 + n)

/-- Function `hex.EncodeToString`: each byte becomes two lower-case hex
digits. -/
def hexEncode (bs : List Nat) : String :=
  String.mk (bs.foldr (fun b acc => hexDigit (b / 16) :: hexDigit (b % 16) :: acc) [])

/-- The fields of the resolver's stream value that `resolve` reads
(`stream.Source` from the 0.38-era lbry.go types). -/
structure ResolvedSource where
  sdHash : List Nat
  mediaType : String
  size : Nat
deriving DecidableEq

/-- The resolver's stream value: the optional fee (`none` is a nil
`stream.Fee`) with its amount, and the source fields. -/
structure ResolvedStream where
  fee : Option Rat
  source : ResolvedSource
deriving DecidableEq

/-- Outcome of the external `lbrynet.Resolve` call. -/
inductive ResolveOutcome where
  | resolverErr
  | ok (r : ResolvedStream)

/-- Errors returned by `resolve` (player.go). -/
inductive ResolveErr where
  /-- Error "stream uri is not set". -/
  | emptyURI
  /-- An error propagated unchanged from `lbrynet.Resolve`. -/
  | resolverFailure
  /-- Error "paid stream". -/
  | paidStream
deriving DecidableEq

/-- Method `reflectedStream.resolve` (player.go).  The `outcome` argument
stands for the external `lbrynet.Resolve` call, which the source only
reaches once the URI has been checked nonempty. -/
def resolve (outcome : ResolveOutcome) (s : reflectedStream) :
    reflectedStream × Option ResolveErr :=
  if s.URI = "" then (s, some .emptyURI)
  else
    match outcome with
    | .resolverErr => (s, some .resolverFailure)
    | .ok r =>
      let populated : reflectedStream × Option ResolveErr :=
        ({ s with SdHash := hexEncode r.source.sdHash,
                  ContentType := r.source.mediaType,
                  Size := (r.source.size : Int) }, none)
      match r.fee with
      | some amt => if 0 < amt then (s, some .paidStream) else populated
      | none => populated

/-- Errors returned by `fetchData` (player.go). -/
inductive FetchErr where
  /-- Error "no sd hash set, call `resolve` first". -/
  | noSdHash
  /-- Transport failure from `http.Get` on the descriptor URL. -/
  | httpGetErr
  /-- Failure from `ioutil.ReadAll` on the descriptor response body. -/
  | bodyReadErr
  /-- Failure from `SDBlob.UnmarshalJSON`. -/
  | parseErr
deriving DecidableEq

/-- Outcome of the descriptor download and parse (the `http.Get` of
`s.URL()`, the body read, and `SDBlob.UnmarshalJSON`), as one oracle. -/
inductive SdFetchOutcome where
  | getErr
  | readErr
  | parseErr
  | ok (sdb : SDBlob)

/-- Per-blob contribution of the size-estimation loop
(player.go lines 174–180). -/
def sizeContribution (bi : BlobInfo) : Int :=
  if bi.length = maxBlobSizeN then maxBlobSize - 1 else (bi.length : Int)

/-- The size-estimation loop plus the fixed `s.Size -= 15` correction
(player.go lines 173–184), starting from `s.Size = 0`. -/
def estimateSize (blobInfos : List BlobInfo) : Int :=
  (blobInfos.foldl (fun acc bi => acc + sizeContribution bi) 0) - 15

/-- The `sort.Slice(sdb.BlobInfos, ...)` call with comparator
`BlobNum i < BlobNum j`; merge sort by `≤` on `BlobNum` realizes one
admissible result of that (unstable) sort. -/
def sortBlobInfos (l : List BlobInfo) : List BlobInfo :=
  l.mergeSort (fun a b => a.blobNum ≤ b.blobNum)

/-- Method `reflectedStream.fetchData` (player.go): guard on `SdHash`,
descriptor fetch/parse, size estimation when `s.Size == 0`, sort of the
descriptor list, and the write of `s.SDBlob`. -/
def fetchData (outcome : SdFetchOutcome) (s : reflectedStream) :
    reflectedStream × Option FetchErr :=
  if s.SdHash = "" then (s, some .noSdHash)
  else
    match outcome with
    | .getErr => (s, some .httpGetErr)
    | .readErr => (s, some .bodyReadErr)
    | .parseErr => (s, some .parseErr)
    | .ok sdb =>
      let newSize := if s.Size = 0 then estimateSize sdb.blobInfos else s.Size
      ({ s with Size := newSize,
                SDBlob := some { sdb with blobInfos := sortBlobInfos sdb.blobInfos } },
       none)

/-- Function `newReflectedStream` (player.go): a fresh stream (all fields at
their Go zero values) put through `resolve`. -/
def newReflectedStream (uri : String) (outcome : ResolveOutcome) :
    reflectedStream × Option ResolveErr :=
  resolve outcome
    { URI := uri, StartByte := 0, EndByte := 0, SdHash := "", Size := 0,
      ContentType := "", SDBlob := none, seekOffset := 0 }

/-- Errors with which `PlayURI` aborts before streaming begins. -/
inductive PlayErr where
  | resolveFailed (e : ResolveErr)
  | fetchFailed (e : FetchErr)
deriving DecidableEq

/-- The resolution and index-fetch pipeline of `PlayURI` (player.go):
`newReflectedStream` (which runs `resolve`), then `fetchData`; a failure at
either step aborts before any blob is fetched.  The `ServeContent` phase
that would then drive Read/Seek is an external collaborator. -/
def PlayURI (uri : String) (rOutcome : ResolveOutcome)
    (sdOutcome : SdFetchOutcome) : Except PlayErr reflectedStream :=
  match newReflectedStream uri rOutcome with
  | (_, some e) => .error (.resolveFailed e)
  | (rs, none) =>
    match fetchData sdOutcome rs with
    | (_, some e) => .error (.fetchFailed e)
    | (rs2, none) => .ok rs2

/-! ### Example data used by witnesses and counterexamples -/

/-- A fetch oracle whose every request fails at the transport level. -/
def noFetch : FetchOracle := fun _ => none

/-- A decryption oracle that always fails. -/
def noDecrypt : DecryptOracle := fun _ _ _ => none

/-- A small concrete stream with a three-byte single-blob index. -/
def exampleStream : reflectedStream :=
  { URI := "u", StartByte := 0, EndByte := 0, SdHash := "ab", Size := 3,
    ContentType := "video/mp4", SDBlob := some ⟨[9], [⟨0, [1], 4, [2]⟩]⟩,
    seekOffset := 0 }

/-! ### Claims about Seek -/

/-- Dispatch of `Seek` on `whence = io.SeekStart`. -/
theorem Seek_start (s : reflectedStream) (offset : Int) :
    Seek s offset seekStart = seekFinish s offset := by
  simp [Seek, seekStart, seekEnd, seekCurrent]

/-- Dispatch of `Seek` on `whence = io.SeekEnd`. -/
theorem Seek_end (s : reflectedStream) (offset : Int) :
    Seek s offset seekEnd = seekFinish s (s.Size - offset) := by
  simp [Seek]

/-- Dispatch of `Seek` on `whence = io.SeekCurrent`. -/
theorem Seek_current (s : reflectedStream) (offset : Int) :
    Seek s offset seekCurrent = seekFinish s (s.seekOffset + offset) := by
  simp [Seek, seekStart, seekEnd, seekCurrent]

/-- The guard of `seekFinish` on a nonnegative target offset. -/
theorem seekFinish_nonneg (s : reflectedStream) (n : Int) (h : 0 ≤ n) :
    seekFinish s n = ({ s with seekOffset := n }, n, none) := by
  simp only [seekFinish]
  rw [if_neg (by omega)]

/-- The guard of `seekFinish` on a negative target offset. -/
theorem seekFinish_neg (s : reflectedStream) (n : Int) (h : n < 0) :
    seekFinish s n = (s, 0, some .negativeSeek) := by
  simp only [seekFinish]
  rw [if_pos (by omega)]

/-- C3: `Seek(offset, Start)` sets and returns `cursor = offset`,
`Seek(offset, End)` sets and returns `cursor = size - offset`,
`Seek(offset, Current)` sets and returns `cursor = cursor_old + offset`,
whenever the resulting value is nonnegative; no upper bound against `Size`
is checked (none of the hypotheses below bound the result by `Size`), and
`Seek(size, Start)` followed by `Seek(0, Current)` returns `size`. -/
theorem seek_semantics (s : reflectedStream) (offset : Int) :
    (0 ≤ offset → Seek s offset seekStart =
      ({ s with seekOffset := offset }, offset, none)) ∧
    (0 ≤ s.Size - offset → Seek s offset seekEnd =
      ({ s with seekOffset := s.Size - offset }, s.Size - offset, none)) ∧
    (0 ≤ s.seekOffset + offset → Seek s offset seekCurrent =
      ({ s with seekOffset := s.seekOffset + offset },
        s.seekOffset + offset, none)) ∧
    (0 ≤ s.Size →
      (Seek (Seek s s.Size seekStart).1 0 seekCurrent).2.1 = s.Size) := by
  refine ⟨fun h => ?_, fun h => ?_, fun h => ?_, fun h => ?_⟩
  · rw [Seek_start, seekFinish_nonneg _ _ h]
  · rw [Seek_end, seekFinish_nonneg _ _ h]
  · rw [Seek_current, seekFinish_nonneg _ _ h]
  · rw [Seek_start, seekFinish_nonneg _ _ h]
    dsimp only
    rw [Seek_current, seekFinish_nonneg _ _ (by dsimp only; omega)]
    dsimp only
    omega

/-- Witness for C3 at a concrete stream and offset. -/
theorem seek_semantics_witness :
    Seek exampleStream 2 seekStart =
      ({ exampleStream with seekOffset := 2 }, 2, none) :=
  (seek_semantics exampleStream 2).1 (by decide)

/-- C7: a `Seek` whose computed new offset is negative fails with the
negative-seek error, a `Seek` with a whence that is none of Start, End,
Current fails with the invalid-whence error, and in both failure cases the
returned stream is `s` itself — the cursor retains its prior value. -/
theorem seek_error_handling (s : reflectedStream) (offset whence : Int) :
    (whence ≠ seekStart → whence ≠ seekEnd → whence ≠ seekCurrent →
      Seek s offset whence = (s, 0, some .invalidWhence)) ∧
    (offset < 0 → Seek s offset seekStart = (s, 0, some .negativeSeek)) ∧
    (s.Size - offset < 0 → Seek s offset seekEnd = (s, 0, some .negativeSeek)) ∧
    (s.seekOffset + offset < 0 →
      Seek s offset seekCurrent = (s, 0, some .negativeSeek)) := by
  refine ⟨fun h1 h2 h3 => ?_, fun h => ?_, fun h => ?_, fun h => ?_⟩
  · simp only [Seek]
    rw [if_neg h2, if_neg h1, if_neg h3]
  · rw [Seek_start, seekFinish_neg _ _ h]
  · rw [Seek_end, seekFinish_neg _ _ h]
  · rw [Seek_current, seekFinish_neg _ _ h]

/-- Witness for C7: whence 7 is invalid, and seeking to -1 is rejected,
both leaving the concrete stream untouched. -/
theorem seek_error_handling_witness :
    Seek exampleStream 5 7 = (exampleStream, 0, some .invalidWhence) ∧
    Seek exampleStream (-1) seekStart =
      (exampleStream, 0, some .negativeSeek) :=
  ⟨(seek_error_handling exampleStream 5 7).1 (by decide) (by decide) (by decide),
   (seek_error_handling exampleStream (-1) seekStart).2.1 (by decide)⟩

/-! ### Claims about fetchData's size estimation -/

/-- The size-estimation loop accumulates the per-blob contributions. -/
theorem foldl_add_eq_sum (f : BlobInfo → Int) :
    ∀ (l : List BlobInfo) (a : Int),
      l.foldl (fun acc bi => acc + f bi) a = a + (l.map f).sum
  | [], a => by simp
  | bi :: l, a => by
    simp only [List.foldl_cons, List.map_cons, List.sum_cons,
      foldl_add_eq_sum f l]
    ring

/-- Unfolding of `fetchData` on a successfully parsed descriptor. -/
theorem fetchData_ok (s : reflectedStream) (sdb : SDBlob)
    (hsd : s.SdHash ≠ "") :
    fetchData (.ok sdb) s =
      ({ s with Size := if s.Size = 0 then estimateSize sdb.blobInfos else s.Size,
                SDBlob := some { sdb with blobInfos := sortBlobInfos sdb.blobInfos } },
       none) := by
  simp only [fetchData]
  rw [if_neg hsd]

/-- C4: when the resolved size is 0, the index fetch sets the size to the
sum over all blob descriptors of (maxBlobSize - 1 if the descriptor's
declared length equals maxBlobSize, else the declared length), minus 15; for
N blobs each of exactly maxBlobSize ciphertext length the estimate is
N*(maxBlobSize-1) - 15; and when the resolved size is nonzero the index
fetch leaves it unchanged. -/
theorem fetchData_size_estimate (s : reflectedStream) (sdb : SDBlob)
    (hsd : s.SdHash ≠ "") :
    (s.Size = 0 → (fetchData (.ok sdb) s).1.Size =
      (sdb.blobInfos.map (fun bi =>
        if bi.length = maxBlobSizeN then maxBlobSize - 1
        else (bi.length : Int))).sum - 15) ∧
    (∀ (N : Nat) (bi : BlobInfo), s.Size = 0 → bi.length = maxBlobSizeN →
      sdb.blobInfos = List.replicate N bi →
      (fetchData (.ok sdb) s).1.Size = N * (maxBlobSize - 1) - 15) ∧
    (s.Size ≠ 0 → (fetchData (.ok sdb) s).1.Size = s.Size) := by
  rw [fetchData_ok s sdb hsd]
  have hest : estimateSize sdb.blobInfos =
      (sdb.blobInfos.map (fun bi =>
        if bi.length = maxBlobSizeN then maxBlobSize - 1
        else (bi.length : Int))).sum - 15 := by
    simp only [estimateSize, sizeContribution, foldl_add_eq_sum, zero_add]
  refine ⟨fun h0 => ?_, fun N bi h0 hlen hrep => ?_, fun hne => ?_⟩
  · dsimp only
    rw [if_pos h0, hest]
  · dsimp only
    rw [if_pos h0, hest, hrep, List.map_replicate, if_pos hlen,
      List.sum_replicate, nsmul_eq_mul]
  · dsimp only
    rw [if_neg hne]

/-- Witness for C4: a two-blob index, one full-size blob and one 100-byte
blob, fetched into a stream whose resolved size is 0. -/
theorem fetchData_size_estimate_witness :
    (fetchData (.ok ⟨[9], [⟨0, [1], maxBlobSizeN, [2]⟩, ⟨1, [3], 100, [4]⟩]⟩)
      { exampleStream with Size := 0 }).1.Size =
      ([maxBlobSize - 1, (100 : Int)].sum - 15) :=
  ((fetchData_size_estimate { exampleStream with Size := 0 }
      ⟨[9], [⟨0, [1], maxBlobSizeN, [2]⟩, ⟨1, [3], 100, [4]⟩]⟩
      (by decide)).1 rfl).trans (by decide)

/-! ### Claims about resolve -/

/-- C8: an empty URI is rejected with the validation error independently of
the resolver outcome (so before any resolver call), and aborts `PlayURI`
before the index fetch for every index-fetch outcome; a resolved stream
whose fee amount is strictly positive is rejected with the paid-content
error, and aborts `PlayURI` before the index fetch for every index-fetch
outcome; and only when neither rejection applies are SdHash (hex-encoded),
ContentType and Size populated from the resolver result. -/
theorem resolve_rejections :
    (∀ (outcome : ResolveOutcome) (s : reflectedStream), s.URI = "" →
      resolve outcome s = (s, some .emptyURI)) ∧
    (∀ (rOutcome : ResolveOutcome) (sdOutcome : SdFetchOutcome),
      PlayURI "" rOutcome sdOutcome = .error (.resolveFailed .emptyURI)) ∧
    (∀ (s : reflectedStream) (r : ResolvedStream) (amt : Rat), s.URI ≠ "" →
      r.fee = some amt → 0 < amt →
      resolve (.ok r) s = (s, some .paidStream)) ∧
    (∀ (uri : String) (r : ResolvedStream) (amt : Rat)
      (sdOutcome : SdFetchOutcome), uri ≠ "" → r.fee = some amt → 0 < amt →
      PlayURI uri (.ok r) sdOutcome = .error (.resolveFailed .paidStream)) ∧
    (∀ (s : reflectedStream) (r : ResolvedStream), s.URI ≠ "" →
      (r.fee = none ∨ ∃ amt, r.fee = some amt ∧ ¬ 0 < amt) →
      resolve (.ok r) s =
        ({ s with SdHash := hexEncode r.source.sdHash,
                  ContentType := r.source.mediaType,
                  Size := (r.source.size : Int) }, none)) := by
  have hempty : ∀ (outcome : ResolveOutcome) (s : reflectedStream),
      s.URI = "" → resolve outcome s = (s, some .emptyURI) := by
    intro outcome s h
    simp only [resolve]
    rw [if_pos h]
  have hpaid : ∀ (s : reflectedStream) (r : ResolvedStream) (amt : Rat),
      s.URI ≠ "" → r.fee = some amt → 0 < amt →
      resolve (.ok r) s = (s, some .paidStream) := by
    intro s r amt hu hfee hamt
    simp only [resolve]
    rw [if_neg hu, hfee]
    dsimp only
    rw [if_pos hamt]
  refine ⟨hempty, fun rOutcome sdOutcome => ?_, hpaid,
    fun uri r amt sdOutcome hu hfee hamt => ?_, fun s r hu hfee => ?_⟩
  · simp only [PlayURI, newReflectedStream]
    rw [hempty rOutcome _ rfl]
  · simp only [PlayURI, newReflectedStream]
    rw [hpaid _ r amt hu hfee hamt]
  · simp only [resolve]
    rw [if_neg hu]
    rcases hfee with hnone | ⟨amt, hsome, hle⟩
    · rw [hnone]
    · rw [hsome]
      dsimp only
      rw [if_neg hle]

/-- Witness for C8: a stream resolving with a fee of 1/100 is rejected as
paid content, both by `resolve` and by the `PlayURI` pipeline. -/
theorem resolve_rejections_witness :
    resolve (.ok ⟨some (1 / 100 : Rat), ⟨[0xde], "video/mp4", 3⟩⟩)
        exampleStream = (exampleStream, some .paidStream) ∧
    PlayURI "lbry://what" (.ok ⟨some (1 / 100 : Rat), ⟨[0xde], "video/mp4", 3⟩⟩)
        .getErr = .error (.resolveFailed .paidStream) :=
  ⟨resolve_rejections.2.2.1 exampleStream _ (1 / 100) (by decide) rfl
      (by norm_num),
   resolve_rejections.2.2.2.1 "lbry://what" _ (1 / 100) .getErr (by decide) rfl
      (by norm_num)⟩

/-! ### Claims about Read -/

/-- C1: for every Read call at cursor `c ≥ 0`, the blob addressed is
`blobNum = floor(c / (maxBlobSize - 2))`, and the start offset within that
blob is `c - blobNum * maxBlobSize` when `blobNum = 0` and
`c - blobNum * maxBlobSize + blobNum` when `blobNum > 0` — the divisor
`maxBlobSize - 2` and the `+ blobNum` correction exactly as written — and
these are exactly the two values `Read` hands to `streamBlob`. -/
theorem read_blob_addressing (fetch : FetchOracle) (decrypt : DecryptOracle)
    (s : reflectedStream) (p : List Nat) (hc : 0 ≤ s.seekOffset) :
    readBlobNum s.seekOffset = Int.fdiv s.seekOffset (maxBlobSize - 2) ∧
    (readBlobNum s.seekOffset = 0 →
      readStartOffset s.seekOffset =
        s.seekOffset - readBlobNum s.seekOffset * maxBlobSize) ∧
    (0 < readBlobNum s.seekOffset →
      readStartOffset s.seekOffset =
        s.seekOffset - readBlobNum s.seekOffset * maxBlobSize +
          readBlobNum s.seekOffset) ∧
    Read fetch decrypt s p =
      (match streamBlob fetch decrypt s (readBlobNum s.seekOffset)
          (readStartOffset s.seekOffset) p with
       | .panicked msg => .panicked msg
       | .res dest n e =>
         .res { s with seekOffset := s.seekOffset + n } dest n e) := by
  refine ⟨?_, fun h0 => ?_, fun hpos => ?_, rfl⟩
  · simp only [readBlobNum]
    exact (Int.fdiv_eq_tdiv hc (by decide)).symm
  · simp only [readStartOffset]
    rw [if_pos h0]
  · simp only [readStartOffset]
    rw [if_neg (by omega)]

/-- Witness for C1 at the concrete cursor 5000000: the blob addressed is
number 2 and the in-blob offset carries the `+ blobNum` correction. -/
theorem read_blob_addressing_witness :
    readBlobNum 5000000 = Int.fdiv 5000000 (maxBlobSize - 2) ∧
    readBlobNum 5000000 = 2 ∧
    readStartOffset 5000000 = 5000000 - 2 * maxBlobSize + 2 :=
  ⟨(read_blob_addressing noFetch noDecrypt
      { exampleStream with seekOffset := 5000000 } [] (by decide)).1,
   by decide, by decide⟩

/-- Characterization of a successful `streamBlob` call: with the descriptor
in range, a 200 response whose body decrypts to `body`, and a start offset
`so` with `0 ≤ so ≤ length body`, the copy covers exactly the slice of the
decrypted blob from `so` to `min (so + length dest) (length body)`. -/
theorem streamBlob_success (fetch : FetchOracle) (decrypt : DecryptOracle)
    (s : reflectedStream) (blobNum so : Int) (dest : List Nat) (sdb : SDBlob)
    (bi : BlobInfo) (resp : HttpResp) (enc body : List Nat)
    (hsd : s.SDBlob = some sdb) (hbn : 0 ≤ blobNum)
    (hbi : sdb.blobInfos[blobNum.toNat]? = some bi)
    (hf : fetch bi = some resp) (hst : resp.statusCode = 200)
    (hb : resp.body = some enc)
    (hd : decrypt enc sdb.key bi.iv = some body)
    (ho : 0 ≤ so) (hoL : so ≤ (body.length : Int)) :
    streamBlob fetch decrypt s blobNum so dest =
      .res (goCopy dest
          ((body.take (min (so + (dest.length : Int))
            (body.length : Int)).toNat).drop so.toNat))
        ((min (so + (dest.length : Int)) (body.length : Int) - so).toNat)
        none := by
  have hE : (if ((dest.length : Int) + so > (body.length : Int))
        then ((body.length : Int)) else ((dest.length : Int) + so)) =
      min (so + (dest.length : Int)) ((body.length : Int)) := by
    split <;> omega
  simp only [streamBlob, hsd]
  rw [if_pos hbn, hbi]
  dsimp only
  rw [hf]
  dsimp only
  rw [if_pos hst, hb]
  dsimp only
  rw [hd]
  dsimp only
  rw [hE, if_pos ⟨ho, by omega⟩]
  congr 1
  simp only [List.length_drop, List.length_take]
  omega

/-- Behaviour of Go's `copy` when the source is no longer than the
destination: the whole source lands at the front of the buffer and the tail
of the buffer is untouched. -/
theorem goCopy_of_src_short (dest src : List Nat) (h : src.length ≤ dest.length) :
    goCopy dest src = src ++ dest.drop src.length := by
  unfold goCopy
  rw [List.take_of_length_le h, Nat.min_eq_right h]

/-- A fetch oracle that always serves status 200 with body `enc`. -/
def okFetch (enc : List Nat) : FetchOracle := fun _ => some ⟨200, some enc⟩

/-- A decryption oracle that always yields plaintext `body`. -/
def constDecrypt (body : List Nat) : DecryptOracle := fun _ _ _ => some body

/-- Characterization of a successful `Read`: the returned byte count is
`min (o+B) L - o` and the buffer receives that slice of the decrypted blob
followed by its own untouched tail. -/
theorem read_success_spec (fetch : FetchOracle) (decrypt : DecryptOracle)
    (s : reflectedStream) (p : List Nat) (sdb : SDBlob) (bi : BlobInfo)
    (resp : HttpResp) (enc body : List Nat)
    (hsd : s.SDBlob = some sdb)
    (hbn : 0 ≤ readBlobNum s.seekOffset)
    (hbi : sdb.blobInfos[(readBlobNum s.seekOffset).toNat]? = some bi)
    (hf : fetch bi = some resp) (hst : resp.statusCode = 200)
    (hb : resp.body = some enc)
    (hd : decrypt enc sdb.key bi.iv = some body)
    (ho : 0 ≤ readStartOffset s.seekOffset)
    (hoL : readStartOffset s.seekOffset ≤ (body.length : Int)) :
    ∃ n : Nat,
      (n : Int) = min (readStartOffset s.seekOffset + (p.length : Int))
          (body.length : Int) - readStartOffset s.seekOffset ∧
      n ≤ body.length ∧
      Read fetch decrypt s p =
        .res { s with seekOffset := s.seekOffset + (n : Int) }
          ((body.take (min (readStartOffset s.seekOffset + (p.length : Int))
              (body.length : Int)).toNat).drop
              (readStartOffset s.seekOffset).toNat ++ p.drop n)
          n none := by
  refine ⟨(min (readStartOffset s.seekOffset + (p.length : Int))
      (body.length : Int) - readStartOffset s.seekOffset).toNat,
    by omega, by omega, ?_⟩
  have hslicelen : ((body.take (min (readStartOffset s.seekOffset +
        (p.length : Int)) (body.length : Int)).toNat).drop
        (readStartOffset s.seekOffset).toNat).length =
      (min (readStartOffset s.seekOffset + (p.length : Int))
        (body.length : Int) - readStartOffset s.seekOffset).toNat := by
    simp only [List.length_drop, List.length_take]
    omega
  simp only [Read]
  rw [streamBlob_success fetch decrypt s _ _ p sdb bi resp enc body hsd hbn
    hbi hf hst hb hd ho hoL]
  dsimp only
  rw [goCopy_of_src_short _ _ (by rw [hslicelen]; omega), hslicelen]

/-- C2: a successful Read with buffer length B and start offset o inside
the addressed decrypted blob of length L (0 ≤ o ≤ L) writes exactly
`decryptedBlob[o : min (o+B) L]` to the start of the buffer (the rest of
the buffer is untouched), returns `bytesWritten = min (o+B) L - o`,
advances the cursor by exactly `bytesWritten`, and the written bytes are
drawn from that single decrypted blob only — never more, even when B
exceeds the blob's remaining bytes. -/
theorem read_single_blob_copy (fetch : FetchOracle) (decrypt : DecryptOracle)
    (s : reflectedStream) (p : List Nat) (sdb : SDBlob) (bi : BlobInfo)
    (resp : HttpResp) (enc body : List Nat)
    (hsd : s.SDBlob = some sdb)
    (hbn : 0 ≤ readBlobNum s.seekOffset)
    (hbi : sdb.blobInfos[(readBlobNum s.seekOffset).toNat]? = some bi)
    (hf : fetch bi = some resp) (hst : resp.statusCode = 200)
    (hb : resp.body = some enc)
    (hd : decrypt enc sdb.key bi.iv = some body)
    (ho : 0 ≤ readStartOffset s.seekOffset)
    (hoL : readStartOffset s.seekOffset ≤ (body.length : Int)) :
    ∃ n : Nat,
      (n : Int) = min (readStartOffset s.seekOffset + (p.length : Int))
          (body.length : Int) - readStartOffset s.seekOffset ∧
      n ≤ body.length ∧
      Read fetch decrypt s p =
        .res { s with seekOffset := s.seekOffset + (n : Int) }
          ((body.take (min (readStartOffset s.seekOffset + (p.length : Int))
              (body.length : Int)).toNat).drop
              (readStartOffset s.seekOffset).toNat ++ p.drop n)
          n none :=
  read_success_spec fetch decrypt s p sdb bi resp enc body hsd hbn hbi hf
    hst hb hd ho hoL

/-- Witness for C2: a single three-byte blob read from cursor 1 into a
five-byte buffer yields the blob's last two bytes at the front of the
buffer and advances the cursor to 3. -/
theorem read_single_blob_copy_witness :
    ∃ n : Nat,
      (n : Int) = min (readStartOffset 1 + (5 : Int)) 3 - readStartOffset 1 ∧
      n ≤ 3 ∧
      Read (okFetch [1, 2, 3]) (constDecrypt [10, 20, 30])
          { exampleStream with seekOffset := 1 } [0, 0, 0, 0, 0] =
        .res { exampleStream with seekOffset := 1 + (n : Int) }
          (([10, 20, 30].take (min (readStartOffset 1 + (5 : Int)) 3).toNat).drop
            (readStartOffset 1).toNat ++ [0, 0, 0, 0, 0].drop n)
          n none :=
  read_single_blob_copy (okFetch [1, 2, 3]) (constDecrypt [10, 20, 30])
    { exampleStream with seekOffset := 1 } [0, 0, 0, 0, 0]
    ⟨[9], [⟨0, [1], 4, [2]⟩]⟩ ⟨0, [1], 4, [2]⟩ ⟨200, some [1, 2, 3]⟩
    [1, 2, 3] [10, 20, 30] rfl (by decide) (by decide) rfl rfl rfl rfl
    (by decide) (by decide)

/-- EOF behaviour of `Read` at an in-blob offset exactly equal to the
decrypted blob's length: zero bytes, no error, stream unchanged. -/
theorem read_eof_of_offset_eq_length (fetch : FetchOracle)
    (decrypt : DecryptOracle) (s : reflectedStream) (p : List Nat)
    (sdb : SDBlob) (bi : BlobInfo) (resp : HttpResp) (enc body : List Nat)
    (hsd : s.SDBlob = some sdb) (hbn : 0 ≤ readBlobNum s.seekOffset)
    (hbi : sdb.blobInfos[(readBlobNum s.seekOffset).toNat]? = some bi)
    (hf : fetch bi = some resp) (hst : resp.statusCode = 200)
    (hb : resp.body = some enc) (hd : decrypt enc sdb.key bi.iv = some body)
    (hoe : readStartOffset s.seekOffset = (body.length : Int)) :
    Read fetch decrypt s p = .res s p 0 none := by
  simp only [Read]
  rw [streamBlob_success fetch decrypt s _ _ p sdb bi resp enc body hsd hbn
    hbi hf hst hb hd (by rw [hoe]; exact Int.ofNat_nonneg _) (by rw [hoe])]
  dsimp only
  rw [hoe]
  have h1 : min ((body.length : Int) + (p.length : Int)) (body.length : Int) =
      (body.length : Int) := by omega
  rw [h1]
  simp [goCopy, List.drop_length, Int.toNat_natCast]

/-- One-blob stream used by the C6 witness and counterexample. -/
def oneByteBlobStream : reflectedStream :=
  { URI := "u", StartByte := 0, EndByte := 0, SdHash := "ab", Size := 1,
    ContentType := "video/mp4", SDBlob := some ⟨[9], [⟨0, [1], 2, [2]⟩]⟩,
    seekOffset := 1 }

/-- C6 counterexample: on a single-blob stream whose decrypted blob has
length 1, a Read at cursor 2 — in-blob offset 2, strictly greater than the
blob length — panics with Go's slice-bounds runtime error instead of
returning 0 bytes with no error, refuting the claim's
"greater than or equal" case. -/
theorem read_past_blob_end_counterexample :
    Read (okFetch [1, 2]) (constDecrypt [10])
        { oneByteBlobStream with seekOffset := 2 } [0] =
      .panicked "slice bounds out of range" ∧
    ∀ s2 dest, Read (okFetch [1, 2]) (constDecrypt [10])
        { oneByteBlobStream with seekOffset := 2 } [0] ≠ .res s2 dest 0 none := by
  have h : Read (okFetch [1, 2]) (constDecrypt [10])
      { oneByteBlobStream with seekOffset := 2 } [0] =
      .panicked "slice bounds out of range" := by decide
  exact ⟨h, fun s2 dest hcon => by rw [h] at hcon; cases hcon⟩

/-- C6 (amended): a Read on the final blob whose in-blob offset is exactly
equal to the decrypted blob's length returns 0 bytes with no error (EOF) —
for strictly greater offsets the slice expression panics instead, see the
counterexample — and for a single-blob stream of length L < maxBlobSize - 2,
a Read at cursor 0 into a buffer of size L returns exactly the L plaintext
bytes and the immediately following Read returns 0 bytes with no error. -/
theorem read_eof_semantics :
    (∀ (fetch : FetchOracle) (decrypt : DecryptOracle) (s : reflectedStream)
      (p : List Nat) (sdb : SDBlob) (bi : BlobInfo) (resp : HttpResp)
      (enc body : List Nat),
      s.SDBlob = some sdb → 0 ≤ readBlobNum s.seekOffset →
      sdb.blobInfos[(readBlobNum s.seekOffset).toNat]? = some bi →
      fetch bi = some resp → resp.statusCode = 200 → resp.body = some enc →
      decrypt enc sdb.key bi.iv = some body →
      readStartOffset s.seekOffset = (body.length : Int) →
      Read fetch decrypt s p = .res s p 0 none) ∧
    (∀ (key iv hash enc plain p p2 : List Nat) (fetch : FetchOracle)
      (decrypt : DecryptOracle) (s : reflectedStream),
      plain.length < maxBlobSizeN - 2 →
      p.length = plain.length →
      fetch ⟨0, hash, enc.length, iv⟩ = some ⟨200, some enc⟩ →
      decrypt enc key iv = some plain →
      s.SDBlob = some ⟨key, [⟨0, hash, enc.length, iv⟩]⟩ →
      s.seekOffset = 0 →
      ∃ s1 : reflectedStream,
        Read fetch decrypt s p = .res s1 plain plain.length none ∧
        s1.seekOffset = (plain.length : Int) ∧ s1.SDBlob = s.SDBlob ∧
        Read fetch decrypt s1 p2 = .res s1 p2 0 none) := by
  constructor
  · intro fetch decrypt s p sdb bi resp enc body hsd hbn hbi hf hst hb hd hoe
    exact read_eof_of_offset_eq_length fetch decrypt s p sdb bi resp enc body
      hsd hbn hbi hf hst hb hd hoe
  · intro key iv hash enc plain p p2 fetch decrypt s hlen hp hf hd hsd hcur
    have hbn0 : readBlobNum 0 = 0 := by
      simp [readBlobNum]
    have hso0 : readStartOffset 0 = 0 := by
      simp [readStartOffset, hbn0]
    have hbnL : readBlobNum (plain.length : Int) = 0 := by
      apply Int.tdiv_eq_zero_of_lt (Int.ofNat_nonneg _)
      simp only [maxBlobSize, maxBlobSizeN] at *
      omega
    have hsoL : readStartOffset (plain.length : Int) = (plain.length : Int) := by
      simp [readStartOffset, hbnL]
    obtain ⟨n, hn, hnle, hread⟩ :=
      read_success_spec fetch decrypt s p ⟨key, [⟨0, hash, enc.length, iv⟩]⟩
        ⟨0, hash, enc.length, iv⟩ ⟨200, some enc⟩ enc plain hsd
        (by rw [hcur, hbn0]) (by rw [hcur, hbn0]; rfl) hf rfl rfl hd
        (by rw [hcur, hso0]) (by rw [hcur, hso0]; exact Int.ofNat_nonneg _)
    rw [hcur, hso0, hp] at hn
    have hnval : n = plain.length := by omega
    subst hnval
    rw [hcur, hso0, hp] at hread
    have hmin : min ((0 : Int) + (plain.length : Int)) (plain.length : Int) =
        (plain.length : Int) := by omega
    rw [hmin] at hread
    have hdrop : List.drop plain.length p = [] := by
      rw [← hp]
      exact List.drop_length p
    simp only [Int.toNat_natCast, Int.toNat_zero, List.take_length,
      List.drop_zero, hdrop, List.append_nil, zero_add] at hread
    refine ⟨{ s with seekOffset := (plain.length : Int) }, hread, rfl, rfl, ?_⟩
    exact read_eof_of_offset_eq_length fetch decrypt
      { s with seekOffset := (plain.length : Int) } p2
      ⟨key, [⟨0, hash, enc.length, iv⟩]⟩ ⟨0, hash, enc.length, iv⟩
      ⟨200, some enc⟩ enc plain hsd
      (by show 0 ≤ readBlobNum ((plain.length : Nat) : Int); rw [hbnL])
      (by show ([⟨0, hash, enc.length, iv⟩] :
            List BlobInfo)[(readBlobNum ((plain.length : Nat) : Int)).toNat]? =
          some ⟨0, hash, enc.length, iv⟩
          rw [hbnL]
          rfl)
      hf rfl rfl hd
      (by show readStartOffset ((plain.length : Nat) : Int) = _; rw [hsoL])

/-- Witness for C6 (amended): a concrete one-byte single-blob stream read
fully at cursor 0, whose following Read is a clean EOF. -/
theorem read_eof_semantics_witness :
    ∃ s1 : reflectedStream,
      Read (okFetch [1, 2]) (constDecrypt [10])
          { oneByteBlobStream with seekOffset := 0 } [0] =
        .res s1 [10] 1 none ∧
      s1.seekOffset = ((1 : Nat) : Int) ∧
      s1.SDBlob = ({ oneByteBlobStream with seekOffset := 0 } :
        reflectedStream).SDBlob ∧
      Read (okFetch [1, 2]) (constDecrypt [10]) s1 [7, 7] =
        .res s1 [7, 7] 0 none :=
  read_eof_semantics.2 [9] [2] [1] [1, 2] [10] [0] [7, 7]
    (okFetch [1, 2]) (constDecrypt [10])
    { oneByteBlobStream with seekOffset := 0 }
    (by decide) rfl rfl rfl rfl rfl

/-- C5 counterexample: with an empty descriptor index, a Read addresses
blob 0, which is out of range; the code panics with Go's index-out-of-range
runtime error and does not return any `(n, err)` result — there is no
error-returning out-of-range branch in the descriptor lookup. -/
theorem read_out_of_range_counterexample :
    Read noFetch noDecrypt { exampleStream with SDBlob := some ⟨[9], []⟩ } [0] =
      .panicked "index out of range" ∧
    ∀ (s2 : reflectedStream) (dest : List Nat) (n : Nat) (e : Option StreamErr),
      Read noFetch noDecrypt { exampleStream with SDBlob := some ⟨[9], []⟩ } [0] ≠
        .res s2 dest n e := by
  have h : Read noFetch noDecrypt
      { exampleStream with SDBlob := some ⟨[9], []⟩ } [0] =
      .panicked "index out of range" := by decide
  exact ⟨h, fun s2 dest n e hcon => by rw [h] at hcon; cases hcon⟩

/-- C5 (amended): whenever the computed blob number is at least the number
of descriptors in the index (as after a seek past end-of-stream), Read
panics with Go's runtime index-out-of-range error — deterministic defined
behaviour, but a panic that unwinds the call, not a returned error value. -/
theorem read_out_of_range_panics (fetch : FetchOracle) (decrypt : DecryptOracle)
    (s : reflectedStream) (p : List Nat) (sdb : SDBlob)
    (hsd : s.SDBlob = some sdb) (hbn : 0 ≤ readBlobNum s.seekOffset)
    (hge : sdb.blobInfos.length ≤ (readBlobNum s.seekOffset).toNat) :
    Read fetch decrypt s p = .panicked "index out of range" := by
  simp only [Read, streamBlob, hsd]
  rw [if_pos hbn, List.getElem?_eq_none hge]

/-- Witness for C5 (amended): a Read against an empty index panics. -/
theorem read_out_of_range_panics_witness :
    Read noFetch noDecrypt
        { exampleStream with SDBlob := some ⟨[9], []⟩, seekOffset := 7 } [] =
      .panicked "index out of range" :=
  read_out_of_range_panics noFetch noDecrypt
    { exampleStream with SDBlob := some ⟨[9], []⟩, seekOffset := 7 } []
    ⟨[9], []⟩ rfl (by decide) (by decide)

/-- Every error-returning branch of `streamBlob` returns `n = 0` and leaves
the destination buffer untouched. -/
theorem streamBlob_error_zero (fetch : FetchOracle) (decrypt : DecryptOracle)
    (s : reflectedStream) (blobNum so : Int) (dest d : List Nat) (n : Nat)
    (e : StreamErr)
    (h : streamBlob fetch decrypt s blobNum so dest = .res d n (some e)) :
    n = 0 ∧ d = dest := by
  simp only [streamBlob] at h
  repeat' split at h
  all_goals cases h
  all_goals exact ⟨rfl, rfl⟩

/-- C10: a Read that returns a non-nil error (transport failure, non-200
status, body-read failure, or decryption failure) returns bytesWritten = 0,
leaves the buffer untouched, and leaves the cursor exactly at its value
before the call — even though the cursor update in Read is applied
unconditionally, it adds the zero byte count. -/
theorem read_error_no_advance (fetch : FetchOracle) (decrypt : DecryptOracle)
    (s : reflectedStream) (p : List Nat) (s2 : reflectedStream)
    (dest : List Nat) (n : Nat) (e : StreamErr)
    (h : Read fetch decrypt s p = .res s2 dest n (some e)) :
    n = 0 ∧ dest = p ∧ s2.seekOffset = s.seekOffset := by
  simp only [Read] at h
  rcases hsb : streamBlob fetch decrypt s (readBlobNum s.seekOffset)
      (readStartOffset s.seekOffset) p with msg | ⟨d0, n0, e0⟩
  · rw [hsb] at h
    cases h
  · rw [hsb] at h
    dsimp only at h
    injection h with h1 h2 h3 h4
    obtain ⟨hn0, hd0⟩ := streamBlob_error_zero fetch decrypt s
      (readBlobNum s.seekOffset) (readStartOffset s.seekOffset) p d0 n0 e
      (h4 ▸ hsb)
    refine ⟨h3 ▸ hn0, h2 ▸ hd0, ?_⟩
    rw [← h1]
    dsimp only
    rw [hn0]
    simp

/-- Witness for C10: a Read whose blob fetch fails at the transport level
returns 0 bytes and leaves the cursor where it was. -/
theorem read_error_no_advance_witness :
    (0 : Nat) = 0 ∧ ([5] : List Nat) = [5] ∧
      ({ exampleStream with
          seekOffset := exampleStream.seekOffset + ((0 : Nat) : Int) } :
        reflectedStream).seekOffset = exampleStream.seekOffset :=
  read_error_no_advance noFetch noDecrypt exampleStream [5] _ [5] 0
    .httpGetErr (by decide)

/-! ### Claims about the descriptor index ordering -/

/-- The blob descriptor that a Read at the current cursor looks up:
`s.SDBlob.BlobInfos[blobNum]` when that index is in range. -/
def addressedBlob (s : reflectedStream) : Option BlobInfo :=
  match s.SDBlob with
  | none => none
  | some sdb =>
    if 0 ≤ readBlobNum s.seekOffset then
      sdb.blobInfos[(readBlobNum s.seekOffset).toNat]?
    else none

/-- Cursor 0 addresses blob number 0. -/
theorem readBlobNum_zero : readBlobNum 0 = 0 := by
  simp [readBlobNum]

/-- The sorted descriptor list is pairwise ordered by sequence number. -/
theorem sortBlobInfos_sorted (l : List BlobInfo) :
    (sortBlobInfos l).Pairwise (fun a b => a.blobNum ≤ b.blobNum) := by
  have hs : (sortBlobInfos l).Pairwise
      (fun a b : BlobInfo => decide (a.blobNum ≤ b.blobNum) = true) := by
    unfold sortBlobInfos
    apply List.sorted_mergeSort
    · intro a b c hab hbc
      simp only [decide_eq_true_eq] at *
      omega
    · intro a b
      simp [Nat.le_total]
  exact hs.imp (by simp)

/-- The sorted descriptor list is a permutation of the wire-order list. -/
theorem sortBlobInfos_perm (l : List BlobInfo) : (sortBlobInfos l).Perm l := by
  unfold sortBlobInfos
  exact List.mergeSort_perm l _

/-- If some descriptor carries sequence number 0, the sorted list starts
with a descriptor carrying sequence number 0. -/
theorem sortBlobInfos_head_zero (l : List BlobInfo) (b : BlobInfo)
    (hb : b ∈ l) (h0 : b.blobNum = 0) :
    ∃ hd tl, sortBlobInfos l = hd :: tl ∧ hd.blobNum = 0 := by
  have hmem : b ∈ sortBlobInfos l := ((sortBlobInfos_perm l).mem_iff).2 hb
  have hp := sortBlobInfos_sorted l
  rcases hsl : sortBlobInfos l with _ | ⟨hd, tl⟩
  · rw [hsl] at hmem
    cases hmem
  · rw [hsl] at hp hmem
    refine ⟨hd, tl, rfl, ?_⟩
    rcases List.mem_cons.1 hmem with rfl | htl
    · exact h0
    · have := (List.pairwise_cons.1 hp).1 _ htl
      omega

/-- A Read that returns a result never mutates the parsed index. -/
theorem read_preserves_SDBlob (fetch : FetchOracle) (decrypt : DecryptOracle)
    (s : reflectedStream) (p : List Nat) (s2 : reflectedStream)
    (dest : List Nat) (n : Nat) (e : Option StreamErr)
    (h : Read fetch decrypt s p = .res s2 dest n e) : s2.SDBlob = s.SDBlob := by
  simp only [Read] at h
  rcases hsb : streamBlob fetch decrypt s (readBlobNum s.seekOffset)
      (readStartOffset s.seekOffset) p with msg | ⟨d0, n0, e0⟩
  · rw [hsb] at h
    cases h
  · rw [hsb] at h
    dsimp only at h
    injection h with h1 _ _ _
    rw [← h1]

/-- A Seek never mutates the parsed index. -/
theorem seek_preserves_SDBlob (s : reflectedStream) (offset whence : Int) :
    (Seek s offset whence).1.SDBlob = s.SDBlob := by
  simp only [Seek, seekFinish]
  repeat' split
  all_goals rfl

/-- A Read consults the fetch transport only at the addressed blob: two
transports that agree there make Read agree. -/
theorem read_congr_fetch (fetch fetch2 : FetchOracle) (decrypt : DecryptOracle)
    (s : reflectedStream) (p : List Nat)
    (hagree : ∀ bi, addressedBlob s = some bi → fetch bi = fetch2 bi) :
    Read fetch decrypt s p = Read fetch2 decrypt s p := by
  rcases hsd : s.SDBlob with _ | sdb
  · simp only [Read, streamBlob, hsd]
  · simp only [Read, streamBlob, hsd]
    by_cases hbn : 0 ≤ readBlobNum s.seekOffset
    · rw [if_pos hbn, if_pos hbn]
      rcases hbi : sdb.blobInfos[(readBlobNum s.seekOffset).toNat]? with _ | bi
      · simp only [hbi]
      · have hfe : fetch bi = fetch2 bi := by
          apply hagree
          simp only [addressedBlob, hsd]
          rw [if_pos hbn, hbi]
        simp only [hbi, hfe]
    · rw [if_neg hbn, if_neg hbn]

/-- After an index fetch, a cursor at 0 addresses a descriptor with
sequence number 0 whenever the index contains one. -/
theorem addressedBlob_after_fetch_zero (s : reflectedStream) (sdb : SDBlob)
    (b : BlobInfo) (hsd : s.SdHash ≠ "") (hcur : s.seekOffset = 0)
    (hb : b ∈ sdb.blobInfos) (h0 : b.blobNum = 0) :
    ∃ bi0, addressedBlob (fetchData (.ok sdb) s).1 = some bi0 ∧
      bi0.blobNum = 0 := by
  rw [fetchData_ok s sdb hsd]
  obtain ⟨hd, tl, hsl, hhead⟩ := sortBlobInfos_head_zero sdb.blobInfos b hb h0
  refine ⟨hd, ?_, hhead⟩
  simp only [addressedBlob]
  rw [hcur, readBlobNum_zero, hsl]
  simp

/-- C9: after a successful index fetch the descriptor sequence is sorted in
ascending sequence-number order — a permutation of the wire document's
order, which is not trusted — with the key unchanged; the index is never
mutated by any subsequent Read or Seek; a Read consults the blob transport
only for the descriptor addressed by the cursor; and at cursor 0 a freshly
fetched index addresses a descriptor with sequence number 0 whenever one
exists, so a Read at offset 0 returns data from sequence number 0. -/
theorem fetchData_sorts_blobIndex :
    (∀ (s : reflectedStream) (sdb : SDBlob), s.SdHash ≠ "" →
      ∃ sdb2 : SDBlob, (fetchData (.ok sdb) s).1.SDBlob = some sdb2 ∧
        sdb2.key = sdb.key ∧
        sdb2.blobInfos.Pairwise (fun a b => a.blobNum ≤ b.blobNum) ∧
        sdb2.blobInfos.Perm sdb.blobInfos) ∧
    (∀ (fetch : FetchOracle) (decrypt : DecryptOracle) (s : reflectedStream)
      (p : List Nat) (s2 : reflectedStream) (dest : List Nat) (n : Nat)
      (e : Option StreamErr),
      Read fetch decrypt s p = .res s2 dest n e → s2.SDBlob = s.SDBlob) ∧
    (∀ (s : reflectedStream) (offset whence : Int),
      (Seek s offset whence).1.SDBlob = s.SDBlob) ∧
    (∀ (fetch fetch2 : FetchOracle) (decrypt : DecryptOracle)
      (s : reflectedStream) (p : List Nat),
      (∀ bi, addressedBlob s = some bi → fetch bi = fetch2 bi) →
      Read fetch decrypt s p = Read fetch2 decrypt s p) ∧
    (∀ (s : reflectedStream) (sdb : SDBlob) (b : BlobInfo),
      s.SdHash ≠ "" → s.seekOffset = 0 → b ∈ sdb.blobInfos → b.blobNum = 0 →
      ∃ bi0, addressedBlob (fetchData (.ok sdb) s).1 = some bi0 ∧
        bi0.blobNum = 0) := by
  refine ⟨fun s sdb hsd => ?_, read_preserves_SDBlob, seek_preserves_SDBlob,
    read_congr_fetch, addressedBlob_after_fetch_zero⟩
  rw [fetchData_ok s sdb hsd]
  exact ⟨_, rfl, rfl, sortBlobInfos_sorted _, sortBlobInfos_perm _⟩

/-- Witness for C9: an index arriving in the order 2, 0, 1 is reordered,
and the cursor-0 addressed descriptor has sequence number 0. -/
theorem fetchData_sorts_blobIndex_witness :
    (∃ sdb2 : SDBlob,
      (fetchData (.ok ⟨[9], [⟨2, [5], 5, []⟩, ⟨0, [6], 6, []⟩, ⟨1, [7], 7, []⟩]⟩)
        exampleStream).1.SDBlob = some sdb2 ∧
      sdb2.key = ([9] : List Nat) ∧
      sdb2.blobInfos.Pairwise (fun a b => a.blobNum ≤ b.blobNum) ∧
      sdb2.blobInfos.Perm [⟨2, [5], 5, []⟩, ⟨0, [6], 6, []⟩, ⟨1, [7], 7, []⟩]) ∧
    (∃ bi0, addressedBlob (fetchData
        (.ok ⟨[9], [⟨2, [5], 5, []⟩, ⟨0, [6], 6, []⟩, ⟨1, [7], 7, []⟩]⟩)
        exampleStream).1 = some bi0 ∧ bi0.blobNum = 0) :=
  ⟨fetchData_sorts_blobIndex.1 exampleStream
      ⟨[9], [⟨2, [5], 5, []⟩, ⟨0, [6], 6, []⟩, ⟨1, [7], 7, []⟩]⟩ (by decide),
   fetchData_sorts_blobIndex.2.2.2.2 exampleStream
      ⟨[9], [⟨2, [5], 5, []⟩, ⟨0, [6], 6, []⟩, ⟨1, [7], 7, []⟩]⟩
      ⟨0, [6], 6, []⟩ (by decide) rfl (by simp) rfl⟩

end Player
